import Mathlib

/-!
Shallow embedding of the focus-session logic of the two-user study app
(`src/App.tsx`): JS truthiness on nullable millisecond timestamps, the
live elapsed-seconds computation, the session-end accounting, the
pause/resume/select/disconnect state writes, the cycle-date formatter and
the partner-online notification reducer.  Timestamps are modelled as
`Option Int` (JS `number | null`), `Math.floor(x / 1000)` as `Int.fdiv`.
-/

namespace StudyApp

/-- `FocusState` enum from `src/types.ts`. -/
inductive FocusState where
  | Idle
  | Focusing
  | Paused
deriving DecidableEq, Repr

/-- JS truthiness of a nullable number: `null` and `0` are falsy
(`if (!startTime)`, `if (... && lastPauseStart)` in `src/App.tsx`). -/
def jsTruthy : Option Int → Bool
  | none => false
  | some x => x != 0

/-- JS `x || 0` on a nullable number (`totalPaused || 0` in `src/App.tsx`):
`null` becomes `0`, and `0 || 0` is `0`, so this is just the default-zero read. -/
def jsOrZero : Option Int → Int
  | none => 0
  | some x => x

/-- Read a nullable number that the code has already checked truthy. -/
def jsGetD (o : Option Int) : Int := o.getD 0

/-- `calculateElapsed` from the timer effect of `src/App.tsx` (lines 1216-1230):
if `!startTime` return 0; otherwise accumulate `totalPaused || 0`, add
`now - lastPauseStart` when paused with a truthy pause start, and return
`Math.floor((now - startTime - currentTotalPaused) / 1000)`. -/
def calculateElapsed (focus : FocusState) (startTime totalPaused lastPauseStart : Option Int)
    (now : Int) : Int :=
  if jsTruthy startTime = false then 0
  else
    let currentTotalPaused := jsOrZero totalPaused +
      (if focus = FocusState.Paused ∧ jsTruthy lastPauseStart = true then
        now - jsGetD lastPauseStart
      else 0)
    Int.fdiv (now - jsGetD startTime - currentTotalPaused) 1000

/-- The value actually stored for display by the timer interval
(`setUserElapsedSeconds(userSeconds > 0 ? userSeconds : 0)`, lines 1232-1238). -/
def displayedElapsed (focus : FocusState) (startTime totalPaused lastPauseStart : Option Int)
    (now : Int) : Int :=
  let s := calculateElapsed focus startTime totalPaused lastPauseStart now
  if s > 0 then s else 0

/-- Modelled from the spec: `effectivePaused = totalPaused +
(state == Paused && lastPauseStart non-null ? now - lastPauseStart : 0)`
(spec section 4.1).  Kept separate from the source computation so the two
can be compared. -/
def specEffectivePaused (focus : FocusState) (totalPaused lastPauseStart : Option Int)
    (now : Int) : Int :=
  jsOrZero totalPaused +
    (if focus = FocusState.Paused ∧ lastPauseStart ≠ none then now - jsGetD lastPauseStart else 0)

/-- The per-character node `users/{character}` as read by `snapshot.val()`
(`src/App.tsx`); mailbox slots are not needed by the session accounting. -/
structure UserData where
  focusState : FocusState
  focusStartTime : Option Int
  totalPausedTime : Option Int
  lastPauseStartTime : Option Int
  isOnline : Bool
deriving DecidableEq, Repr

/-- `handleEnd` lines 963-968: `finalTotalPausedTime = userData.totalPausedTime || 0`,
plus `now - lastPauseStartTime` when `focusState === Paused && lastPauseStartTime`. -/
def finalPausedOf (now : Int) (u : UserData) : Int :=
  jsOrZero u.totalPausedTime +
    (if u.focusState = FocusState.Paused ∧ jsTruthy u.lastPauseStartTime = true then
      now - jsGetD u.lastPauseStartTime
    else 0)

/-- `handleEnd` lines 969-970: `sessionDurationMs = (now - focusStartTime) -
finalTotalPausedTime; sessionDurationSec = ms > 0 ? floor(ms / 1000) : 0`. -/
def sessionSecondsOf (now : Int) (u : UserData) : Int :=
  let ms := (now - jsGetD u.focusStartTime) - finalPausedOf now u
  if ms > 0 then Int.fdiv ms 1000 else 0

/-- Effective start used for the joint overlap (`focusStartTime + finalTotalPausedTime`,
`handleEnd` lines 984-985). -/
def effectiveStartOf (now : Int) (u : UserData) : Int :=
  jsGetD u.focusStartTime + finalPausedOf now u

/-- `handleEnd` lines 986-988: `jointDurationMs = now - max(userEffectiveStart,
partnerEffectiveStart); jointDurationSec = ms > 0 ? floor(ms / 1000) : 0`. -/
def jointSecondsOf (now : Int) (u p : UserData) : Int :=
  let ms := now - max (effectiveStartOf now u) (effectiveStartOf now p)
  if ms > 0 then Int.fdiv ms 1000 else 0

/-- The two `ServerValue.increment` writes a non-aborted `handleEnd` may put in
its multi-path update (each present only when its seconds are `> 0`); every
non-aborted run additionally writes the four run-scoped resets, modelled by
`applyEndReset`. -/
structure EndUpdates where
  selfIncrement : Option Int
  jointIncrement : Option Int
deriving DecidableEq, Repr

/-- An increment write is issued only when the computed seconds are positive
(`if (sessionDurationSec > 0)`, `if (jointDurationSec > 0)`). -/
def optIncrement (sec : Int) : Option Int :=
  if sec > 0 then some sec else none

/-- The guard of `handleEnd` (lines 957-961): proceed only when self is
Focusing/Paused with a truthy `focusStartTime`. -/
def endGuard (u : UserData) : Bool :=
  (u.focusState == FocusState.Focusing || u.focusState == FocusState.Paused) &&
    jsTruthy u.focusStartTime

/-- The partner condition for the joint credit (line 977). -/
def jointGuard (p : UserData) : Bool :=
  (p.focusState == FocusState.Focusing || p.focusState == FocusState.Paused) &&
    jsTruthy p.focusStartTime

/-- `handleEnd` from `src/App.tsx` (lines 944-999) as a pure function of the two
snapshots and `now`: `none` means the procedure returned without writing
anything (`!userData || !partnerData`, or the self guard failed); `some r`
means it issued the multi-path update holding the increments of `r` together
with the four run-scoped resets. -/
def handleEnd (now : Int) (userData? partnerData? : Option UserData) : Option EndUpdates :=
  match userData?, partnerData? with
  | some u, some p =>
    if endGuard u = false then none
    else
      some { selfIncrement := optIncrement (sessionSecondsOf now u),
             jointIncrement :=
               if jointGuard p = true then optIncrement (jointSecondsOf now u p) else none }
  | _, _ => none

/-- The four run-scoped reset writes of `handleEnd`'s update (lines 994-997):
`focusState = Idle`, `focusStartTime/totalPausedTime/lastPauseStartTime = null`;
no other field of the user node is written. -/
def applyEndReset (u : UserData) : UserData :=
  { u with focusState := FocusState.Idle, focusStartTime := none,
           totalPausedTime := none, lastPauseStartTime := none }

/-- The user node after running `handleEnd` against snapshots `u`, `p`:
unchanged when the procedure aborted, reset otherwise. -/
def endResultingUser (now : Int) (u p : UserData) : UserData :=
  match handleEnd now (some u) (some p) with
  | none => u
  | some _ => applyEndReset u

/-- `handleCharacterSelect` (src/App.tsx lines 1288-1306): the write
`update({focusState: Idle, focusStartTime: null, isOnline: true})` — note it
leaves `totalPausedTime` and `lastPauseStartTime` untouched. -/
def handleCharacterSelect (u : UserData) : UserData :=
  { u with focusState := FocusState.Idle, focusStartTime := none, isOnline := true }

/-- `startFocusing` (also `handleStart`/`handleJoin`): sets Focusing, a fresh
server start timestamp, `totalPausedTime: 0`, `lastPauseStartTime: null`. -/
def startFocusing (now : Int) (u : UserData) : UserData :=
  { u with focusState := FocusState.Focusing, focusStartTime := some now,
           totalPausedTime := some 0, lastPauseStartTime := none }

/-- `handlePause`: sets Paused and a fresh server pause timestamp. -/
def handlePause (now : Int) (u : UserData) : UserData :=
  { u with focusState := FocusState.Paused, lastPauseStartTime := some now }

/-- `handleResume` (lines 1333-1350): only when the snapshot is Paused with a
truthy `lastPauseStartTime`, credit `(totalPausedTime || 0) + (now -
lastPauseStartTime)` and clear the pause start; otherwise no write happens. -/
def handleResume (now : Int) (u : UserData) : UserData :=
  if u.focusState = FocusState.Paused ∧ jsTruthy u.lastPauseStartTime = true then
    { u with focusState := FocusState.Focusing,
             totalPausedTime :=
               some (jsOrZero u.totalPausedTime + (now - jsGetD u.lastPauseStartTime)),
             lastPauseStartTime := none }
  else u

/-- The `onDisconnect().update` registered on connect: `isOnline: false` plus the
full focus reset. -/
def disconnectReset (u : UserData) : UserData :=
  { u with isOnline := false, focusState := FocusState.Idle, focusStartTime := none,
           totalPausedTime := none, lastPauseStartTime := none }

/-- The invariant of spec section 3: `lastPauseStartTime` is non-null iff
`focusState == Paused`. -/
def pauseInv (u : UserData) : Prop :=
  u.lastPauseStartTime ≠ none ↔ u.focusState = FocusState.Paused

/-- The three pieces of client state the online-notification effect manages:
`showOnlineNotification`, `hiSent`, and whether a dismissal timer is pending
(`onlineNotificationTimerRef`). -/
structure NotifState where
  showOnline : Bool
  hiSent : Bool
  timerPending : Bool
deriving DecidableEq, Repr

/-- The online-notification effect of `src/App.tsx` (lines 1258-1275) as a step
function over one partner snapshot: inputs are the previous and current
`isPartnerOnline` and `partnerFocus` values (via `usePrevious`).  First branch:
`(focus === Focusing && prevFocus === Idle) || !online` clears the
notification, cancels the timer and resets the wave flag; second branch:
`online && !prevOnline && focus === Idle` shows the notification and (re)arms
the 15s dismissal timer; otherwise nothing changes. -/
def onlineNotifStep (prevOnline online : Bool) (prevFocus focus : FocusState)
    (s : NotifState) : NotifState :=
  if (focus = FocusState.Focusing ∧ prevFocus = FocusState.Idle) ∨ online = false then
    { showOnline := false, hiSent := false, timerPending := false }
  else if online = true ∧ prevOnline = false ∧ focus = FocusState.Idle then
    { s with showOnline := true, timerPending := true }
  else s

/-- JS `Date.prototype.getUTCHours` on a time value `t` (ms):
`HourFromTime(t) = floor(t / msPerHour) modulo 24` with a nonnegative modulo. -/
def jsGetUTCHours (t : Int) : Int :=
  Int.emod (Int.fdiv t 3600000) 24

/-- The minutes-seconds-milliseconds part of a time value, preserved by
`setUTCHours`; equals `MinFromTime*60000 + SecFromTime*1000 + msFromTime`. -/
def jsTimeWithinHour (t : Int) : Int :=
  Int.emod t 3600000

/-- JS `Date.prototype.setUTCHours(h)` on time value `t`:
`MakeDate(Day(t), MakeTime(h, MinFromTime(t), SecFromTime(t), msFromTime(t)))`,
where a negative or overflowing hour simply shifts the day (no clamping). -/
def jsSetUTCHours (t h : Int) : Int :=
  Int.fdiv t 86400000 * 86400000 + h * 3600000 + jsTimeWithinHour t

/-- Proleptic Gregorian civil date from a day number (days since 1970-01-01),
the arithmetic behind JS `getUTCFullYear`/`getUTCMonth`/`getUTCDate`.
Returns (year, 1-based month, day-of-month). -/
def civilFromDays (z : Int) : Int × Nat × Nat :=
  let zs := z + 719468
  let era := Int.fdiv zs 146097
  let doe := Int.toNat (zs - era * 146097)
  let yoe := (doe - doe / 1460 + doe / 36524 - doe / 146096) / 365
  let doy := doe - (365 * yoe + yoe / 4 - yoe / 100)
  let mp := (5 * doy + 2) / 153
  let d := doy - (153 * mp + 2) / 5 + 1
  let m := if mp < 10 then mp + 3 else mp - 9
  ((yoe : Int) + era * 400 + (if m ≤ 2 then 1 else 0), m, d)

/-- `String(n).padStart(2, '0')` for the month and day fields. -/
def pad2 (n : Nat) : String :=
  if n < 10 then "0" ++ toString n else toString n

/-- Format a civil date the way `getCycleDateString` does:
`` `${year}-${month}-${day}` `` with 2-padded month and day. -/
def formatCivil (ymd : Int × Nat × Nat) : String :=
  toString ymd.1 ++ "-" ++ pad2 ymd.2.1 ++ "-" ++ pad2 ymd.2.2

/-- `getCycleDateString` from `src/App.tsx` (lines 26-34): build a `Date` from
the timestamp, `setUTCHours(getUTCHours() - 1)` to shift the 1 AM UTC day
boundary, then format the UTC year, month + 1 and day with 2-padding. -/
def getCycleDateString (timestamp : Int) : String :=
  let shifted := jsSetUTCHours timestamp (jsGetUTCHours timestamp - 1)
  formatCivil (civilFromDays (Int.fdiv shifted 86400000))

/-- Modelled from the spec: `cycleDate(timestamp) = UTC-date-of(timestamp −
offset)` with the fixed 1-hour offset, formatted `YYYY-MM-DD` (spec sections 3
and 4.1); kept separate from the source computation so the two can be
compared. -/
def specCycleDate (timestamp : Int) : String :=
  formatCivil (civilFromDays (Int.fdiv (timestamp - 3600000) 86400000))

/-- Modelled from the spec: `selfSessionSeconds = floor(max(0, now -
focusStartTime - finalPausedTime) / 1000)` with `finalPausedTime =
totalPausedTime + (Paused ? now - lastPauseStartTime : 0)` (spec section 4.2,
steps 3-4); kept separate from the source computation so the two can be
compared. -/
def specFinalPausedTime (now : Int) (u : UserData) : Int :=
  jsOrZero u.totalPausedTime +
    (if u.focusState = FocusState.Paused then now - jsGetD u.lastPauseStartTime else 0)

/-- Modelled from the spec: the credited session seconds (spec section 4.2,
step 4), applied to either party's fields. -/
def specSessionSeconds (now : Int) (u : UserData) : Int :=
  Int.fdiv (max 0 (now - jsGetD u.focusStartTime - specFinalPausedTime now u)) 1000

/-- Modelled from the spec: a party's effective start, `focusStartTime +
finalPausedTime` (spec section 4.2, step 5). -/
def specEffectiveStart (now : Int) (u : UserData) : Int :=
  jsGetD u.focusStartTime + specFinalPausedTime now u

/-- The user snapshot of the C2 scenario at its end trigger: run started at
base time `b`, paused for 5 s at `b + 10000` and resumed at `b + 15000`, so
the snapshot holds `Focusing`, start `b`, `totalPausedTime = 5000`, no pending
pause. -/
def scenarioPauseUser (b : Int) : UserData :=
  ⟨FocusState.Focusing, some b, some 5000, none, true⟩

/-- A party of the C3 scenario: focusing since `t`, never paused. -/
def scenarioFocusUser (t : Int) : UserData :=
  ⟨FocusState.Focusing, some t, some 0, none, true⟩

-- ---------------------------------------------------------------------------
-- Theorems
-- ---------------------------------------------------------------------------

/-- The `x > 0 ? floor(x/1000) : 0` clamp used throughout the code agrees with
the spec's `floor(max(0, x) / 1000)`. -/
theorem clampFdiv (x : Int) :
    (if Int.fdiv x 1000 > 0 then Int.fdiv x 1000 else 0) = Int.fdiv (max 0 x) 1000 := by
  simp only [Int.fdiv_eq_ediv _ (by norm_num : (0:Int) ≤ 1000)]
  rcases le_or_lt x 0 with h | h <;> omega

theorem jsTruthy_some_pos {x : Int} (h : 0 < x) : jsTruthy (some x) = true := by
  simp only [jsTruthy, bne_iff_ne, ne_eq, decide_eq_true_eq]
  omega

theorem fdiv1000_nonneg {x : Int} (h : 0 ≤ x) : 0 ≤ Int.fdiv x 1000 := by
  rw [Int.fdiv_eq_ediv _ (by norm_num : (0:Int) ≤ 1000)]
  omega

/-- C1 fails as stated: at `startTime = 1000 ms`, `totalPaused = 5000 ms`,
`lastPauseStart = null`, `now = 2000 ms` we have `now ≥ startTime`, yet the
displayed elapsed seconds are `0` while the claimed value
`floor((now - startTime - totalPaused) / 1000)` is `-4`: the claim's
"in particular" clause drops the `max(0, ·)` clamp that the code applies. -/
theorem C1_elapsed_counterexample :
    displayedElapsed FocusState.Focusing (some 1000) (some 5000) none 2000 ≠
      Int.fdiv ((2000 : Int) - 1000 - jsOrZero (some 5000)) 1000 := by
  decide

/-- C1 (amended): for clock inputs whose non-null timestamps are positive (as
`Date.now()` values are), the displayed elapsed seconds are `0` when the start
time is null, and otherwise `floor(max(0, now - startTime - effectivePaused) /
1000)` with `effectivePaused` adding `(now - lastPauseStart)` exactly when the
state is Paused with a non-null `lastPauseStart`; the "in particular" clause
holds once `now ≥ startTime + totalPaused` (the counterexample forces this
extra bound), and the result is then the unclamped floor and never negative. -/
theorem C1_elapsed_amended (focus : FocusState) (st tp lp : Option Int) (now : Int)
    (hst : ∀ s, st = some s → 0 < s) (hlp : ∀ x, lp = some x → 0 < x) :
    (st = none → displayedElapsed focus st tp lp now = 0) ∧
    (∀ s, st = some s →
      displayedElapsed focus st tp lp now =
        Int.fdiv (max 0 (now - s - specEffectivePaused focus tp lp now)) 1000) ∧
    (lp = none → ∀ s, st = some s → s + jsOrZero tp ≤ now →
      displayedElapsed focus st tp lp now = Int.fdiv (now - s - jsOrZero tp) 1000 ∧
      0 ≤ displayedElapsed focus st tp lp now) := by
  have hmain : ∀ s, st = some s →
      displayedElapsed focus st tp lp now =
        Int.fdiv (max 0 (now - s - specEffectivePaused focus tp lp now)) 1000 := by
    intro s hs
    subst hs
    have hs0 : 0 < s := hst s rfl
    have htr : jsTruthy (some s) = true := jsTruthy_some_pos hs0
    have hpause :
        (if focus = FocusState.Paused ∧ jsTruthy lp = true then now - jsGetD lp else 0) =
        (if focus = FocusState.Paused ∧ lp ≠ none then now - jsGetD lp else 0) := by
      cases lp with
      | none => simp [jsTruthy]
      | some x =>
        have : jsTruthy (some x) = true := jsTruthy_some_pos (hlp x rfl)
        simp [this]
    simp only [displayedElapsed, calculateElapsed, htr, Bool.true_eq_false, if_neg,
      specEffectivePaused, if_false]
    rw [hpause]
    simpa using clampFdiv (now - jsGetD (some s) - (jsOrZero tp +
      if focus = FocusState.Paused ∧ lp ≠ none then now - jsGetD lp else 0))
  refine ⟨?_, hmain, ?_⟩
  · intro hnone
    subst hnone
    simp [displayedElapsed, calculateElapsed, jsTruthy]
  · intro hlpnone s hs hle
    subst hlpnone
    have h1 := hmain s hs
    have heff : specEffectivePaused focus tp none now = jsOrZero tp := by
      simp [specEffectivePaused]
    rw [heff] at h1
    have hmax : max 0 (now - s - jsOrZero tp) = now - s - jsOrZero tp := by omega
    rw [hmax] at h1
    exact ⟨h1, h1 ▸ fdiv1000_nonneg (by omega)⟩

/-- Witness for C1 (amended) at concrete inputs. -/
theorem C1_elapsed_amended_witness :
    displayedElapsed FocusState.Focusing (some 1000) (some 2000) none 10000 =
      Int.fdiv ((10000 : Int) - 1000 - jsOrZero (some 2000)) 1000 ∧
    0 ≤ displayedElapsed FocusState.Focusing (some 1000) (some 2000) none 10000 :=
  (C1_elapsed_amended FocusState.Focusing (some 1000) (some 2000) none 10000
      (fun s hs => by cases hs; norm_num) (fun x hx => nomatch hx)).2.2
    rfl 1000 rfl (by norm_num [jsOrZero])

/-- `handleEnd`'s millisecond-level clamp `x > 0 ? floor(x/1000) : 0` also
agrees with the spec's `floor(max(0, x) / 1000)`. -/
theorem clampMsFdiv (x : Int) :
    (if x > 0 then Int.fdiv x 1000 else 0) = Int.fdiv (max 0 x) 1000 := by
  simp only [Int.fdiv_eq_ediv _ (by norm_num : (0:Int) ≤ 1000)]
  rcases le_or_lt x 0 with h | h <;> omega

theorem finalPausedOf_eq_spec (now : Int) (u : UserData)
    (hinv : u.focusState = FocusState.Paused → jsTruthy u.lastPauseStartTime = true) :
    finalPausedOf now u = specFinalPausedTime now u := by
  unfold finalPausedOf specFinalPausedTime
  by_cases h : u.focusState = FocusState.Paused
  · simp [h, hinv h]
  · simp [h]

theorem sessionSecondsOf_eq_spec (now : Int) (u : UserData)
    (hinv : u.focusState = FocusState.Paused → jsTruthy u.lastPauseStartTime = true) :
    sessionSecondsOf now u = specSessionSeconds now u := by
  unfold sessionSecondsOf specSessionSeconds
  rw [finalPausedOf_eq_spec now u hinv]
  exact clampMsFdiv _

theorem jsOrZero_optIncrement {x : Int} (h : 0 ≤ x) : jsOrZero (optIncrement x) = x := by
  by_cases h' : x > 0
  · simp [optIncrement, h', jsOrZero]
  · simp only [optIncrement, if_neg h', jsOrZero]
    omega

theorem sessionSecondsOf_clamp (now : Int) (u : UserData) :
    sessionSecondsOf now u =
      Int.fdiv (max 0 (now - jsGetD u.focusStartTime - finalPausedOf now u)) 1000 := by
  simp only [sessionSecondsOf]
  exact clampMsFdiv _

theorem sessionSecondsOf_nonneg (now : Int) (u : UserData) : 0 ≤ sessionSecondsOf now u := by
  rw [sessionSecondsOf_clamp]
  exact fdiv1000_nonneg (le_max_left 0 _)

theorem specSessionSeconds_nonneg (now : Int) (u : UserData) :
    0 ≤ specSessionSeconds now u :=
  fdiv1000_nonneg (le_max_left 0 _)

theorem endGuard_true (u : UserData)
    (hg : u.focusState = FocusState.Focusing ∨ u.focusState = FocusState.Paused)
    (hst : jsTruthy u.focusStartTime = true) : endGuard u = true := by
  rcases hg with h | h <;> simp [endGuard, h, hst]

/-- C2: when a user-initiated end actually processes (guard passes, and a
Paused user carries its pause timestamp as the invariant guarantees), the
seconds credited to the personal daily counter are exactly the spec's
`floor(max(0, now - focusStartTime - finalPausedTime) / 1000)`; and the
spec's pause scenario — start at base `b`, a 5-second pause, end at
`b + 30000` — credits exactly 25 seconds. -/
theorem C2_selfCredit (now : Int) (u p : UserData)
    (hg : u.focusState = FocusState.Focusing ∨ u.focusState = FocusState.Paused)
    (hst : jsTruthy u.focusStartTime = true)
    (hinv : u.focusState = FocusState.Paused → jsTruthy u.lastPauseStartTime = true) :
    (∃ r, handleEnd now (some u) (some p) = some r ∧
      jsOrZero r.selfIncrement = specSessionSeconds now u) ∧
    (∀ b : Int, 0 < b →
      ∃ r, handleEnd (b + 30000) (some (scenarioPauseUser b)) (some p) = some r ∧
        r.selfIncrement = some 25) := by
  constructor
  · have hguard := endGuard_true u hg hst
    refine ⟨{ selfIncrement := optIncrement (sessionSecondsOf now u),
              jointIncrement :=
                if jointGuard p = true then optIncrement (jointSecondsOf now u p) else none },
            by simp [handleEnd, hguard], ?_⟩
    rw [sessionSecondsOf_eq_spec now u hinv]
    exact jsOrZero_optIncrement (specSessionSeconds_nonneg now u)
  · intro b hb
    have hguard : endGuard (scenarioPauseUser b) = true := by
      simp [endGuard, scenarioPauseUser, jsTruthy_some_pos hb]
    refine ⟨{ selfIncrement := optIncrement (sessionSecondsOf (b + 30000) (scenarioPauseUser b)),
              jointIncrement :=
                if jointGuard p = true then
                  optIncrement (jointSecondsOf (b + 30000) (scenarioPauseUser b) p)
                else none },
            by simp [handleEnd, hguard], ?_⟩
    have hfp : finalPausedOf (b + 30000) (scenarioPauseUser b) = 5000 := by
      simp [finalPausedOf, scenarioPauseUser, jsOrZero]
    have hsec : sessionSecondsOf (b + 30000) (scenarioPauseUser b) = 25 := by
      rw [sessionSecondsOf_clamp, hfp]
      have hms : max 0 (b + 30000 - jsGetD (scenarioPauseUser b).focusStartTime - 5000)
          = 25000 := by
        simp only [scenarioPauseUser, jsGetD, Option.getD_some]
        omega
      rw [hms]
      decide
    simp only [hsec]
    decide

/-- Witness for C2 at concrete inputs. -/
theorem C2_selfCredit_witness :
    (∃ r, handleEnd 31000 (some (scenarioPauseUser 1000))
        (some ⟨FocusState.Idle, none, none, none, false⟩) = some r ∧
      jsOrZero r.selfIncrement = specSessionSeconds 31000 (scenarioPauseUser 1000)) ∧
    (∀ b : Int, 0 < b →
      ∃ r, handleEnd (b + 30000) (some (scenarioPauseUser b))
          (some ⟨FocusState.Idle, none, none, none, false⟩) = some r ∧
        r.selfIncrement = some 25) :=
  C2_selfCredit 31000 (scenarioPauseUser 1000) ⟨FocusState.Idle, none, none, none, false⟩
    (Or.inl rfl) (by decide) (fun h => nomatch h)

theorem jointGuard_true (p : UserData)
    (hg : p.focusState = FocusState.Focusing ∨ p.focusState = FocusState.Paused)
    (hst : jsTruthy p.focusStartTime = true) : jointGuard p = true := by
  rcases hg with h | h <;> simp [jointGuard, h, hst]

theorem effectiveStartOf_eq_spec (now : Int) (u : UserData)
    (hinv : u.focusState = FocusState.Paused → jsTruthy u.lastPauseStartTime = true) :
    effectiveStartOf now u = specEffectiveStart now u := by
  unfold effectiveStartOf specEffectiveStart
  rw [finalPausedOf_eq_spec now u hinv]

theorem jointSecondsOf_clamp (now : Int) (u p : UserData) :
    jointSecondsOf now u p =
      Int.fdiv (max 0 (now - max (effectiveStartOf now u) (effectiveStartOf now p))) 1000 := by
  simp only [jointSecondsOf]
  exact clampMsFdiv _

theorem jointSecondsOf_nonneg (now : Int) (u p : UserData) : 0 ≤ jointSecondsOf now u p := by
  rw [jointSecondsOf_clamp]
  exact fdiv1000_nonneg (le_max_left 0 _)

/-- C3: when the end processes and the partner is also in a run, the joint
seconds put in the update equal the spec's `floor(max(0, now -
max(selfEffectiveStart, partnerEffectiveStart)) / 1000)` with each effective
start being `focusStartTime + finalPausedTime`; and in the spec's concurrency
scenario — both focusing without pausing from `b` and `b + 5000`, first user
ends at `b + 20000` — the update carries self credit 20 s and joint credit
15 s. -/
theorem C3_jointCredit (now : Int) (u p : UserData)
    (hgu : u.focusState = FocusState.Focusing ∨ u.focusState = FocusState.Paused)
    (hstu : jsTruthy u.focusStartTime = true)
    (hinvu : u.focusState = FocusState.Paused → jsTruthy u.lastPauseStartTime = true)
    (hgp : p.focusState = FocusState.Focusing ∨ p.focusState = FocusState.Paused)
    (hstp : jsTruthy p.focusStartTime = true)
    (hinvp : p.focusState = FocusState.Paused → jsTruthy p.lastPauseStartTime = true) :
    (∃ r, handleEnd now (some u) (some p) = some r ∧
      jsOrZero r.jointIncrement =
        Int.fdiv (max 0 (now - max (specEffectiveStart now u) (specEffectiveStart now p)))
          1000) ∧
    (∀ b : Int, 0 < b →
      handleEnd (b + 20000) (some (scenarioFocusUser b)) (some (scenarioFocusUser (b + 5000)))
        = some ⟨some 20, some 15⟩) := by
  constructor
  · have hguard := endGuard_true u hgu hstu
    have hjg := jointGuard_true p hgp hstp
    refine ⟨{ selfIncrement := optIncrement (sessionSecondsOf now u),
              jointIncrement :=
                if jointGuard p = true then optIncrement (jointSecondsOf now u p) else none },
            by simp [handleEnd, hguard], ?_⟩
    simp only [hjg, if_pos]
    have hjz : jsOrZero (optIncrement (jointSecondsOf now u p)) = jointSecondsOf now u p :=
      jsOrZero_optIncrement (jointSecondsOf_nonneg now u p)
    rw [hjz, jointSecondsOf_clamp, effectiveStartOf_eq_spec now u hinvu,
      effectiveStartOf_eq_spec now p hinvp]
  · intro b hb
    have hguard : endGuard (scenarioFocusUser b) = true := by
      simp [endGuard, scenarioFocusUser, jsTruthy_some_pos hb]
    have hjg : jointGuard (scenarioFocusUser (b + 5000)) = true := by
      simp [jointGuard, scenarioFocusUser, jsTruthy_some_pos (by omega : (0:Int) < b + 5000)]
    have hfpu : finalPausedOf (b + 20000) (scenarioFocusUser b) = 0 := by
      simp [finalPausedOf, scenarioFocusUser, jsOrZero]
    have hfpp : finalPausedOf (b + 20000) (scenarioFocusUser (b + 5000)) = 0 := by
      simp [finalPausedOf, scenarioFocusUser, jsOrZero]
    have hsec : sessionSecondsOf (b + 20000) (scenarioFocusUser b) = 20 := by
      rw [sessionSecondsOf_clamp, hfpu]
      have hms : max 0 (b + 20000 - jsGetD (scenarioFocusUser b).focusStartTime - 0)
          = 20000 := by
        simp only [scenarioFocusUser, jsGetD, Option.getD_some]
        omega
      rw [hms]
      decide
    have heffu : effectiveStartOf (b + 20000) (scenarioFocusUser b) = b := by
      rw [effectiveStartOf, hfpu]
      simp [scenarioFocusUser, jsGetD]
    have heffp : effectiveStartOf (b + 20000) (scenarioFocusUser (b + 5000)) = b + 5000 := by
      rw [effectiveStartOf, hfpp]
      simp [scenarioFocusUser, jsGetD]
    have hjsec :
        jointSecondsOf (b + 20000) (scenarioFocusUser b) (scenarioFocusUser (b + 5000))
          = 15 := by
      rw [jointSecondsOf_clamp, heffu, heffp]
      have hms : max 0 (b + 20000 - max b (b + 5000)) = 15000 := by
        rw [max_eq_right (by omega : b ≤ b + 5000)]
        omega
      rw [hms]
      decide
    simp [handleEnd, hguard, hjg, hsec, hjsec, optIncrement]

/-- Witness for C3 at concrete inputs. -/
theorem C3_jointCredit_witness :
    (∃ r, handleEnd 21000 (some (scenarioFocusUser 1000)) (some (scenarioFocusUser 6000))
        = some r ∧
      jsOrZero r.jointIncrement =
        Int.fdiv (max 0 (21000 - max (specEffectiveStart 21000 (scenarioFocusUser 1000))
          (specEffectiveStart 21000 (scenarioFocusUser 6000)))) 1000) ∧
    (∀ b : Int, 0 < b →
      handleEnd (b + 20000) (some (scenarioFocusUser b)) (some (scenarioFocusUser (b + 5000)))
        = some ⟨some 20, some 15⟩) :=
  C3_jointCredit 21000 (scenarioFocusUser 1000) (scenarioFocusUser 6000)
    (Or.inl rfl) (by decide) (fun h => nomatch h)
    (Or.inl rfl) (by decide) (fun h => nomatch h)

theorem fdiv1000_mono {x y : Int} (h : x ≤ y) : Int.fdiv x 1000 ≤ Int.fdiv y 1000 := by
  simp only [Int.fdiv_eq_ediv _ (by norm_num : (0:Int) ≤ 1000)]
  omega

theorem specSessionSeconds_effective (now : Int) (u : UserData) :
    specSessionSeconds now u = Int.fdiv (max 0 (now - specEffectiveStart now u)) 1000 := by
  unfold specSessionSeconds specEffectiveStart
  congr 1
  omega

theorem jointSecondsOf_le_self (now : Int) (u p : UserData)
    (hinvu : u.focusState = FocusState.Paused → jsTruthy u.lastPauseStartTime = true) :
    jointSecondsOf now u p ≤ specSessionSeconds now u := by
  rw [jointSecondsOf_clamp, specSessionSeconds_effective,
    effectiveStartOf_eq_spec now u hinvu]
  refine fdiv1000_mono ?_
  have := le_max_left (specEffectiveStart now u) (effectiveStartOf now p)
  omega

theorem jointSecondsOf_le_partner (now : Int) (u p : UserData)
    (hinvp : p.focusState = FocusState.Paused → jsTruthy p.lastPauseStartTime = true) :
    jointSecondsOf now u p ≤ specSessionSeconds now p := by
  rw [jointSecondsOf_clamp, specSessionSeconds_effective,
    effectiveStartOf_eq_spec now p hinvp]
  refine fdiv1000_mono ?_
  have := le_max_right (effectiveStartOf now u) (specEffectiveStart now p)
  omega

theorem jointSecondsOf_zero_of_no_overlap (now : Int) (u p : UserData)
    (h : now ≤ max (effectiveStartOf now u) (effectiveStartOf now p)) :
    jointSecondsOf now u p = 0 := by
  rw [jointSecondsOf_clamp]
  have hmax : max 0 (now - max (effectiveStartOf now u) (effectiveStartOf now p)) = 0 := by
    omega
  rw [hmax]
  decide

/-- C4: for every pair of snapshots processed at session end, the joint
seconds put in the update are at most the minimum of the self credit and the
partner's session seconds computed by the same formula, and they are 0
whenever the two effective intervals `[effectiveStart, now]` are disjoint
(their later effective start lies beyond `now`). -/
theorem C4_jointBound (now : Int) (u p : UserData)
    (hgu : u.focusState = FocusState.Focusing ∨ u.focusState = FocusState.Paused)
    (hstu : jsTruthy u.focusStartTime = true)
    (hinvu : u.focusState = FocusState.Paused → jsTruthy u.lastPauseStartTime = true)
    (hinvp : p.focusState = FocusState.Paused → jsTruthy p.lastPauseStartTime = true) :
    ∃ r, handleEnd now (some u) (some p) = some r ∧
      jsOrZero r.jointIncrement ≤ min (specSessionSeconds now u) (specSessionSeconds now p) ∧
      (now < max (specEffectiveStart now u) (specEffectiveStart now p) →
        jsOrZero r.jointIncrement = 0) := by
  have hguard := endGuard_true u hgu hstu
  refine ⟨{ selfIncrement := optIncrement (sessionSecondsOf now u),
            jointIncrement :=
              if jointGuard p = true then optIncrement (jointSecondsOf now u p) else none },
          by simp [handleEnd, hguard], ?_, ?_⟩
  · by_cases hjg : jointGuard p = true
    · simp only [hjg, if_pos,
        jsOrZero_optIncrement (jointSecondsOf_nonneg now u p)]
      exact le_min (jointSecondsOf_le_self now u p hinvu)
        (jointSecondsOf_le_partner now u p hinvp)
    · simp only [hjg, if_neg, jsOrZero]
      exact le_min (specSessionSeconds_nonneg now u) (specSessionSeconds_nonneg now p)
  · intro hdisj
    by_cases hjg : jointGuard p = true
    · simp only [hjg, if_pos,
        jsOrZero_optIncrement (jointSecondsOf_nonneg now u p)]
      refine jointSecondsOf_zero_of_no_overlap now u p ?_
      rw [effectiveStartOf_eq_spec now u hinvu, effectiveStartOf_eq_spec now p hinvp]
      omega
    · simp [hjg, jsOrZero]

/-- Witness for C4 at concrete inputs. -/
theorem C4_jointBound_witness :
    ∃ r, handleEnd 21000 (some (scenarioFocusUser 1000)) (some (scenarioFocusUser 6000))
        = some r ∧
      jsOrZero r.jointIncrement ≤ min (specSessionSeconds 21000 (scenarioFocusUser 1000))
        (specSessionSeconds 21000 (scenarioFocusUser 6000)) ∧
      (21000 < max (specEffectiveStart 21000 (scenarioFocusUser 1000))
          (specEffectiveStart 21000 (scenarioFocusUser 6000)) →
        jsOrZero r.jointIncrement = 0) :=
  C4_jointBound 21000 (scenarioFocusUser 1000) (scenarioFocusUser 6000)
    (Or.inl rfl) (by decide) (fun h => nomatch h) (fun h => nomatch h)

/-- C5: the session-end procedure is a no-op — no increments, no reset —
whenever the self snapshot is outside {Focusing, Paused} or has a null
`focusStartTime`; and after any successful run, a second run reading the
cleared state performs zero stat mutation (and leaves the state alone). -/
theorem C5_endIdempotent :
    (∀ (now : Int) (u p : UserData),
      (u.focusState ≠ FocusState.Focusing ∧ u.focusState ≠ FocusState.Paused) ∨
        u.focusStartTime = none →
      handleEnd now (some u) (some p) = none ∧ endResultingUser now u p = u) ∧
    (∀ (now now2 : Int) (u p p2 : UserData) (r : EndUpdates),
      handleEnd now (some u) (some p) = some r →
      handleEnd now2 (some (applyEndReset u)) (some p2) = none ∧
      endResultingUser now2 (applyEndReset u) p2 = applyEndReset u) := by
  have hnoop : ∀ (now : Int) (u p : UserData), endGuard u = false →
      handleEnd now (some u) (some p) = none ∧ endResultingUser now u p = u := by
    intro now u p hguard
    have h1 : handleEnd now (some u) (some p) = none := by simp [handleEnd, hguard]
    exact ⟨h1, by simp [endResultingUser, h1]⟩
  constructor
  · intro now u p h
    refine hnoop now u p ?_
    rcases h with ⟨h1, h2⟩ | h3
    · simp [endGuard, h1, h2]
    · simp [endGuard, h3, jsTruthy]
  · intro now now2 u p p2 r _
    refine hnoop now2 (applyEndReset u) p2 ?_
    simp [endGuard, applyEndReset]

/-- Witness for C5 at concrete inputs. -/
theorem C5_endIdempotent_witness :
    (handleEnd 5000 (some ⟨FocusState.Idle, some 1000, none, none, true⟩)
        (some ⟨FocusState.Idle, none, none, none, false⟩) = none ∧
      endResultingUser 5000 ⟨FocusState.Idle, some 1000, none, none, true⟩
        ⟨FocusState.Idle, none, none, none, false⟩ =
        ⟨FocusState.Idle, some 1000, none, none, true⟩) ∧
    (handleEnd 6000 (some (applyEndReset (scenarioFocusUser 1000)))
        (some ⟨FocusState.Idle, none, none, none, false⟩) = none ∧
      endResultingUser 6000 (applyEndReset (scenarioFocusUser 1000))
        ⟨FocusState.Idle, none, none, none, false⟩ =
        applyEndReset (scenarioFocusUser 1000)) :=
  ⟨C5_endIdempotent.1 5000 ⟨FocusState.Idle, some 1000, none, none, true⟩
      ⟨FocusState.Idle, none, none, none, false⟩ (by decide),
    C5_endIdempotent.2 5000 6000 (scenarioFocusUser 1000)
      ⟨FocusState.Idle, none, none, none, false⟩ ⟨FocusState.Idle, none, none, none, false⟩
      ⟨some 4, none⟩ (by decide)⟩

theorem jointSecondsOf_le_sessionSeconds (now : Int) (u p : UserData) :
    jointSecondsOf now u p ≤ sessionSecondsOf now u := by
  rw [jointSecondsOf_clamp, sessionSecondsOf_clamp]
  refine fdiv1000_mono ?_
  have h := le_max_left (effectiveStartOf now u) (effectiveStartOf now p)
  unfold effectiveStartOf at h ⊢
  omega

/-- C6: a session end whose computed elapsed seconds are zero issues neither
the personal nor the joint increment, yet the multi-path update still resets
the run-scoped fields — `focusState` becomes Idle and the three run
timestamps become null — while every other field of the user node (here
`isOnline`) is untouched. -/
theorem C6_zeroElapsedReset (now : Int) (u p : UserData)
    (hg : u.focusState = FocusState.Focusing ∨ u.focusState = FocusState.Paused)
    (hst : jsTruthy u.focusStartTime = true)
    (hzero : sessionSecondsOf now u = 0) :
    handleEnd now (some u) (some p) = some ⟨none, none⟩ ∧
    endResultingUser now u p = applyEndReset u ∧
    (applyEndReset u).focusState = FocusState.Idle ∧
    (applyEndReset u).focusStartTime = none ∧
    (applyEndReset u).totalPausedTime = none ∧
    (applyEndReset u).lastPauseStartTime = none ∧
    (applyEndReset u).isOnline = u.isOnline := by
  have hguard := endGuard_true u hg hst
  have hj0 : jointSecondsOf now u p = 0 :=
    le_antisymm (hzero ▸ jointSecondsOf_le_sessionSeconds now u p)
      (jointSecondsOf_nonneg now u p)
  have hEnd : handleEnd now (some u) (some p) = some ⟨none, none⟩ := by
    simp [handleEnd, hguard, hzero, hj0, optIncrement]
  exact ⟨hEnd, by simp [endResultingUser, hEnd, applyEndReset], rfl, rfl, rfl, rfl, rfl⟩

/-- Witness for C6 at concrete inputs (a 500 ms run: elapsed seconds 0). -/
theorem C6_zeroElapsedReset_witness :
    handleEnd 1500 (some ⟨FocusState.Focusing, some 1000, some 0, none, true⟩)
        (some (scenarioFocusUser 1000)) = some ⟨none, none⟩ ∧
    endResultingUser 1500 ⟨FocusState.Focusing, some 1000, some 0, none, true⟩
        (scenarioFocusUser 1000) =
      applyEndReset ⟨FocusState.Focusing, some 1000, some 0, none, true⟩ ∧
    (applyEndReset ⟨FocusState.Focusing, some 1000, some 0, none, true⟩).focusState =
      FocusState.Idle ∧
    (applyEndReset ⟨FocusState.Focusing, some 1000, some 0, none, true⟩).focusStartTime =
      none ∧
    (applyEndReset ⟨FocusState.Focusing, some 1000, some 0, none, true⟩).totalPausedTime =
      none ∧
    (applyEndReset ⟨FocusState.Focusing, some 1000, some 0, none, true⟩).lastPauseStartTime =
      none ∧
    (applyEndReset ⟨FocusState.Focusing, some 1000, some 0, none, true⟩).isOnline =
      (⟨FocusState.Focusing, some 1000, some 0, none, true⟩ : UserData).isOnline :=
  C6_zeroElapsedReset 1500 ⟨FocusState.Focusing, some 1000, some 0, none, true⟩
    (scenarioFocusUser 1000) (Or.inl rfl) (by decide) (by decide)

/-- C7 fails as stated: character selection writes only `focusState`,
`focusStartTime` and `isOnline`, leaving `lastPauseStartTime` untouched, so
selecting a character over a Paused snapshot (which satisfies the invariant)
produces an Idle state whose `lastPauseStartTime` is still non-null. -/
theorem C7_pauseInv_counterexample :
    pauseInv ⟨FocusState.Paused, some 100, some 0, some 50, true⟩ ∧
    ¬ pauseInv (handleCharacterSelect ⟨FocusState.Paused, some 100, some 0, some 50, true⟩) := by
  constructor
  · simp [pauseInv]
  · simp [pauseInv, handleCharacterSelect]

/-- C7 (amended): every state-writing operation preserves "lastPauseStartTime
is non-null iff focusState == Paused" — except that character selection does
so only when the prior snapshot is not Paused, since its update leaves the
pause fields untouched. -/
theorem C7_pauseInv_amended :
    (∀ u : UserData, pauseInv u → u.focusState ≠ FocusState.Paused →
      pauseInv (handleCharacterSelect u)) ∧
    (∀ (now : Int) (u : UserData), pauseInv (startFocusing now u)) ∧
    (∀ (now : Int) (u : UserData), pauseInv (handlePause now u)) ∧
    (∀ (now : Int) (u : UserData), pauseInv u → pauseInv (handleResume now u)) ∧
    (∀ (now : Int) (u p : UserData), pauseInv u → pauseInv (endResultingUser now u p)) ∧
    (∀ u : UserData, pauseInv (disconnectReset u)) := by
  refine ⟨?_, ?_, ?_, ?_, ?_, ?_⟩
  · intro u hinv hnp
    simp only [pauseInv, handleCharacterSelect] at *
    constructor
    · intro h
      exact absurd (hinv.mp h) hnp
    · intro h
      exact absurd h (fun hh => nomatch hh)
  · intro now u
    simp [pauseInv, startFocusing]
  · intro now u
    simp [pauseInv, handlePause]
  · intro now u hinv
    unfold handleResume
    split
    · simp [pauseInv]
    · exact hinv
  · intro now u p hinv
    unfold endResultingUser
    cases h : handleEnd now (some u) (some p) with
    | none => exact hinv
    | some r => simp [pauseInv, applyEndReset]
  · intro u
    simp [pauseInv, disconnectReset]

/-- Witness for C7 (amended) at concrete inputs. -/
theorem C7_pauseInv_amended_witness :
    pauseInv (handleCharacterSelect ⟨FocusState.Idle, none, none, none, false⟩) ∧
    pauseInv (handleResume 2000 ⟨FocusState.Paused, some 500, some 0, some 1000, true⟩) ∧
    pauseInv (endResultingUser 2000 (scenarioFocusUser 500) (scenarioFocusUser 500)) :=
  ⟨C7_pauseInv_amended.1 ⟨FocusState.Idle, none, none, none, false⟩ (by simp [pauseInv])
      (fun h => nomatch h),
    C7_pauseInv_amended.2.2.2.1 2000 ⟨FocusState.Paused, some 500, some 0, some 1000, true⟩
      (by simp [pauseInv]),
    C7_pauseInv_amended.2.2.2.2.1 2000 (scenarioFocusUser 500) (scenarioFocusUser 500)
      (by simp [pauseInv, scenarioFocusUser])⟩

/-- C8: while Paused with a (positive, hence truthy) `lastPauseStartTime` the
displayed elapsed seconds are frozen — the same for any two `now` values;
`handleResume` adds exactly `now - lastPauseStartTime` to the accumulated
paused time and clears the pause start; and in the resulting Focusing state
with no pending pause the elapsed seconds grow again with the wall clock, by
one for each 1000 ms. -/
theorem C8_pausedFrozen :
    (∀ (st tp : Option Int) (t n₁ n₂ : Int), 0 < t →
      displayedElapsed FocusState.Paused st tp (some t) n₁ =
        displayedElapsed FocusState.Paused st tp (some t) n₂) ∧
    (∀ (now : Int) (u : UserData), u.focusState = FocusState.Paused →
      jsTruthy u.lastPauseStartTime = true →
      handleResume now u =
        { u with focusState := FocusState.Focusing,
                 totalPausedTime :=
                   some (jsOrZero u.totalPausedTime + (now - jsGetD u.lastPauseStartTime)),
                 lastPauseStartTime := none }) ∧
    (∀ (s : Int) (tp : Option Int) (n : Int), 0 < s →
      calculateElapsed FocusState.Focusing (some s) tp none (n + 1000) =
        calculateElapsed FocusState.Focusing (some s) tp none n + 1) := by
  refine ⟨?_, ?_, ?_⟩
  · intro st tp t n₁ n₂ ht
    have htr : jsTruthy (some t) = true := jsTruthy_some_pos ht
    cases st with
    | none => simp [displayedElapsed, calculateElapsed, jsTruthy]
    | some s =>
      by_cases hs : s = 0
      · subst hs
        simp [displayedElapsed, calculateElapsed, jsTruthy]
      · have hstr : jsTruthy (some s) = true := by simp [jsTruthy, hs]
        have key : ∀ n : Int,
            calculateElapsed FocusState.Paused (some s) tp (some t) n =
              Int.fdiv (t - s - jsOrZero tp) 1000 := by
          intro n
          simp only [calculateElapsed, hstr, htr, Bool.true_eq_false, if_false, and_true,
            if_pos rfl, jsGetD, Option.getD_some, and_self, if_true]
          congr 1
          ring
        unfold displayedElapsed
        rw [key n₁, key n₂]
  · intro now u h1 h2
    unfold handleResume
    rw [if_pos ⟨h1, h2⟩]
  · intro s tp n hs
    have hstr : jsTruthy (some s) = true := jsTruthy_some_pos hs
    have hnone : jsTruthy (none : Option Int) = false := rfl
    simp only [calculateElapsed, hstr, hnone, Bool.true_eq_false, if_false,
      Bool.false_eq_true, and_false, jsGetD, Option.getD_some, add_zero]
    simp only [Int.fdiv_eq_ediv _ (by norm_num : (0:Int) ≤ 1000)]
    omega

/-- Witness for C8 at concrete inputs. -/
theorem C8_pausedFrozen_witness :
    displayedElapsed FocusState.Paused (some 1000) (some 0) (some 9000) 12000 =
      displayedElapsed FocusState.Paused (some 1000) (some 0) (some 9000) 50000 ∧
    handleResume 14000 ⟨FocusState.Paused, some 1000, some 0, some 9000, true⟩ =
      { (⟨FocusState.Paused, some 1000, some 0, some 9000, true⟩ : UserData) with
        focusState := FocusState.Focusing,
        totalPausedTime := some (jsOrZero (some 0) + (14000 - jsGetD (some 9000))),
        lastPauseStartTime := none } ∧
    calculateElapsed FocusState.Focusing (some 1000) (some 5000) none (20000 + 1000) =
      calculateElapsed FocusState.Focusing (some 1000) (some 5000) none 20000 + 1 :=
  ⟨C8_pausedFrozen.1 (some 1000) (some 0) 9000 12000 50000 (by norm_num),
    C8_pausedFrozen.2.1 14000 ⟨FocusState.Paused, some 1000, some 0, some 9000, true⟩
      rfl (by decide),
    C8_pausedFrozen.2.2 1000 (some 5000) 20000 (by norm_num)⟩

/-- The source's `setUTCHours(getUTCHours() - 1)` mutation is exactly a
3 600 000 ms subtraction: a `0`-hour rolls back into the previous UTC day. -/
theorem setUTCHours_sub_one (t : Int) :
    jsSetUTCHours t (jsGetUTCHours t - 1) = t - 3600000 := by
  unfold jsSetUTCHours jsGetUTCHours jsTimeWithinHour
  have hmod : ∀ a b : Int, Int.emod a b = a % b := fun _ _ => rfl
  simp only [Int.fdiv_eq_ediv _ (by norm_num : (0:Int) ≤ 86400000),
    Int.fdiv_eq_ediv _ (by norm_num : (0:Int) ≤ 3600000), hmod]
  omega

/-- C9: `getCycleDateString` is a pure function of its timestamp equal to the
spec's `cycleDate(timestamp) = UTC-date-of(timestamp − offset)` with the fixed
1-hour offset, formatted `YYYY-MM-DD`; and any two timestamps in the same
cycle window (same day bucket of `timestamp − offset`) map to the same
string. -/
theorem C9_cycleDate :
    (∀ t : Int, getCycleDateString t = specCycleDate t) ∧
    (∀ t₁ t₂ : Int,
      Int.fdiv (t₁ - 3600000) 86400000 = Int.fdiv (t₂ - 3600000) 86400000 →
      getCycleDateString t₁ = getCycleDateString t₂) := by
  have hshift : ∀ t : Int, getCycleDateString t = specCycleDate t := by
    intro t
    unfold getCycleDateString specCycleDate
    rw [setUTCHours_sub_one]
  refine ⟨hshift, fun t₁ t₂ h => ?_⟩
  rw [hshift, hshift]
  unfold specCycleDate
  rw [h]

/-- Witness for C9: 01:00 UTC on 1970-01-01 and the last millisecond of that
cycle window format identically. -/
theorem C9_cycleDate_witness :
    getCycleDateString 3600000 = specCycleDate 3600000 ∧
    getCycleDateString 3600000 = getCycleDateString 89999999 :=
  ⟨C9_cycleDate.1 3600000, C9_cycleDate.2 3600000 89999999 (by decide)⟩

/-- C10 fails as stated: a Paused → Focusing partner transition is "a
transition to the partner focusing", yet the effect's clearing branch requires
the previous focus to be Idle, so with the partner online throughout and the
notification visible the step changes nothing — nothing is cleared, the timer
is not cancelled, the wave flag is not reset. -/
theorem C10_notif_counterexample :
    onlineNotifStep true true FocusState.Paused FocusState.Focusing ⟨true, true, true⟩ =
      ⟨true, true, true⟩ := by
  decide

/-- C10 (amended): the notification is shown only on an offline→online edge
with the partner idle; a snapshot with the partner already online changes
nothing (no re-trigger, no timer reset) unless it is the idle→focusing edge;
and the partner starting to focus *from idle*, or any snapshot showing the
partner offline, clears the notification, cancels the pending dismissal timer
and re-arms the one-shot wave flag. -/
theorem C10_notif_amended :
    (∀ (po o : Bool) (pf f : FocusState) (s : NotifState),
      (onlineNotifStep po o pf f s).showOnline = true →
      s.showOnline = true ∨ (po = false ∧ o = true ∧ f = FocusState.Idle)) ∧
    (∀ (po o : Bool) (pf f : FocusState) (s : NotifState),
      po = true → o = true → ¬(pf = FocusState.Idle ∧ f = FocusState.Focusing) →
      onlineNotifStep po o pf f s = s) ∧
    (∀ (po o : Bool) (pf f : FocusState) (s : NotifState),
      (pf = FocusState.Idle ∧ f = FocusState.Focusing) ∨ o = false →
      onlineNotifStep po o pf f s = ⟨false, false, false⟩) := by
  refine ⟨?_, ?_, ?_⟩
  · intro po o pf f s h
    unfold onlineNotifStep at h
    split_ifs at h with h1 h2
    · exact Or.inr ⟨h2.2.1, h2.1, h2.2.2⟩
    · exact Or.inl h
  · intro po o pf f s hpo ho hnot
    subst hpo
    subst ho
    unfold onlineNotifStep
    have h1 : ¬((f = FocusState.Focusing ∧ pf = FocusState.Idle) ∨ (true : Bool) = false) := by
      rintro (⟨hf, hpf⟩ | hfalse)
      · exact hnot ⟨hpf, hf⟩
      · exact absurd hfalse (by simp)
    rw [if_neg h1,
      if_neg (by simp : ¬((true : Bool) = true ∧ (true : Bool) = false ∧ f = FocusState.Idle))]
  · intro po o pf f s hc
    unfold onlineNotifStep
    refine if_pos ?_
    rcases hc with ⟨h1, h2⟩ | h
    · exact Or.inl ⟨h2, h1⟩
    · exact Or.inr h

/-- Witness for C10 (amended) at concrete inputs. -/
theorem C10_notif_amended_witness :
    ((onlineNotifStep false true FocusState.Idle FocusState.Idle
        ⟨false, false, false⟩).showOnline = true →
      (⟨false, false, false⟩ : NotifState).showOnline = true ∨
        (false = false ∧ true = true ∧ FocusState.Idle = FocusState.Idle)) ∧
    onlineNotifStep true true FocusState.Paused FocusState.Paused ⟨true, true, false⟩ =
      ⟨true, true, false⟩ ∧
    onlineNotifStep true true FocusState.Idle FocusState.Focusing ⟨true, true, true⟩ =
      ⟨false, false, false⟩ :=
  ⟨C10_notif_amended.1 false true FocusState.Idle FocusState.Idle ⟨false, false, false⟩,
    C10_notif_amended.2.1 true true FocusState.Paused FocusState.Paused ⟨true, true, false⟩
      rfl rfl (fun h => nomatch h.2),
    C10_notif_amended.2.2 true true FocusState.Idle FocusState.Focusing ⟨true, true, true⟩
      (Or.inl ⟨rfl, rfl⟩)⟩

end StudyApp
